import Mathlib

/-!
Verification development for the docling-cf ingestion/task pipeline.

The definitions below are a shallow embedding of the Cloudflare worker in
`src/index.ts`: the five persisted relations (documents, tasks, sources,
file_chunks, vectorizers) become lists of records, JS strings become
`List Char` where character arithmetic matters, and each HTTP handler
becomes a pure function from a database state (plus the request data and
the freshly generated UUIDs, passed as parameters) to a response value and
a new database state.  JS truthiness (`!content`, `data.message || null`)
and SQL `COALESCE` are modelled explicitly.
-/

namespace DoclingCF

/-- Constant `MAX_FILE_SIZE_MB` from `src/index.ts` line 17. -/
def MAX_FILE_SIZE_MB : Nat := 5

/-- Constant `CHUNK_SIZE_TOKENS` from `src/index.ts` line 18: the configured
inline/chunk threshold, in characters. -/
def CHUNK_SIZE_TOKENS : Nat := 1000

/-- Row of the `documents` table (schema in `docs/deployment.md`).
Timestamps are omitted; no claim depends on them. -/
structure Document where
  id : String
  name : String
  format : String
  pages : Nat
  content : Option (List Char)
  vectorizerId : Option String
deriving DecidableEq

/-- Row of the `tasks` table.  `progress REAL DEFAULT 0` is modelled as an
integer (every value the handlers write is an integer); `updatedAt` is an
abstract clock tick standing for `CURRENT_TIMESTAMP`. -/
structure Task where
  id : String
  status : String
  documentId : String
  progress : Int
  message : Option String
  error : Option String
  updatedAt : Nat
deriving DecidableEq

/-- Row of the `sources` table (the autoincrement id is omitted;
insertion order is the list order). -/
structure SourceRow where
  documentId : String
  url : String
deriving DecidableEq

/-- Row of the `file_chunks` table (the autoincrement id is omitted). -/
structure Chunk where
  documentId : String
  chunkIndex : Nat
  content : List Char
deriving DecidableEq

/-- Row of the `vectorizers` table. -/
structure Vectorizer where
  id : String
  modelName : String
  engineType : String
  chunkSize : Nat
  ocrEngine : String
  parameters : String
deriving DecidableEq

/-- The whole D1 database: the five relations, each in insertion order. -/
structure DB where
  documents : List Document
  tasks : List Task
  sources : List SourceRow
  chunks : List Chunk
  vectorizers : List Vectorizer
deriving DecidableEq

/-- The empty database (fresh deployment). -/
def initDB : DB := ⟨[], [], [], [], []⟩

/-- JS truthiness of a nullable string: `null` and the empty string are
falsy, every other string is truthy. -/
def jsTruthy : Option (List Char) → Bool
  | none => false
  | some s => !s.isEmpty

/-- The JS expression `x || null` on a nullable string: the empty string
collapses to `null`. -/
def jsOrNull : Option String → Option String
  | some s => if s = "" then none else some s
  | none => none

/-- SQL `COALESCE(x, old)` for a nullable column. -/
def sqlCoalesce (x old : Option String) : Option String :=
  match x with
  | some v => some v
  | none => old

/-- JS `Math.ceil(a / b)` on natural numbers, for `b > 0`. -/
def jsCeilDiv (a b : Nat) : Nat := (a + b - 1) / b

/-- The inline-storage expression of the file handler
(`src/index.ts` line 1233): `contentText.length <= CHUNK_SIZE_TOKENS ?
contentText : null`, with the threshold as a parameter. -/
def inlineStored (content : List Char) (T : Nat) : Option (List Char) :=
  if content.length ≤ T then some content else none

/-- The chunk-write loop of the file handler (`src/index.ts` lines
1236-1253): when the content exceeds the threshold, insert
`Math.ceil(length / T)` rows where row `i` holds
`content.substring(i*T, min((i+1)*T, length))`. -/
def writeChunksLoop (documentId : String) (content : List Char) (T : Nat) : List Chunk :=
  if content.length > T then
    (List.range (jsCeilDiv content.length T)).map (fun i =>
      ⟨documentId, i, (content.drop (i * T)).take (min ((i + 1) * T) content.length - i * T)⟩)
  else []

/-- Insertion step for sorting chunk rows by `chunk_index`. -/
def insertSorted (c : Chunk) : List Chunk → List Chunk
  | [] => [c]
  | d :: ds => if c.chunkIndex ≤ d.chunkIndex then c :: d :: ds else d :: insertSorted c ds

/-- The `ORDER BY chunk_index ASC` of the result handler, modelled as an
insertion sort of the selected rows. -/
def sortChunks (cs : List Chunk) : List Chunk := cs.foldr insertSorted []

/-- Content mapping of the result handler (`src/index.ts` lines
1530-1557): take the document's inline content; if it is falsy and the
document id is truthy, reassemble from the document's chunk rows ordered
by `chunk_index`; finally return the content only when it is truthy
(`content ? \x7b text: content \x7d : undefined`). -/
def resultContent (docContent : Option (List Char)) (docId : String)
    (chunkTable : List Chunk) : Option (List Char) :=
  let content1 :=
    if !jsTruthy docContent && !(docId == "") then
      let rows := sortChunks (chunkTable.filter (fun c => c.documentId == docId))
      if rows.length > 0 then some ((rows.map Chunk.content).flatten) else docContent
    else docContent
  if jsTruthy content1 then content1 else none

/-- JSON.stringify of the fixed `defaultParameters` object created with a
new vectorizer row (`src/index.ts` lines 1277-1283). -/
def defaultParametersJson : String :=
  "\x7b\"chunk_overlap\":200,\"max_tokens\":8192,\"token_encoding\":\"cl100k_base\",\"enable_summarization\":true,\"enable_metadata_extraction\":true\x7d"

/-- The lookup `SELECT id FROM vectorizers WHERE model_name = ? ... first()`. -/
def lookupVectorizer (vs : List Vectorizer) (modelName : String) : Option Vectorizer :=
  vs.find? (fun v => v.modelName == modelName)

/-- The commit half of the lookup-or-insert sequence: insert a fresh row
only when the (previously observed) lookup found nothing.  The INSERT is
blind — it does not re-check the table. -/
def getOrCreateCommit (vs : List Vectorizer) (observed : Option Vectorizer)
    (modelName freshId : String) (chunkSize : Nat) (ocrEngine : String) : List Vectorizer :=
  match observed with
  | some _ => vs
  | none => vs ++ [⟨freshId, modelName, "openai", chunkSize, ocrEngine, defaultParametersJson⟩]

/-- The sequential lookup-or-insert sequence shared verbatim by the file
handler (lines 1263-1298), the async handler (lines 1354-1389) and
`ensureDefaultVectorizer` (lines 1719-1758): return the existing row's id
when one matches `model_name`, otherwise insert a fresh row with a
generated id.  Returns the linked id and the new table. -/
def getOrCreateVectorizer (vs : List Vectorizer) (modelName freshId : String)
    (chunkSize : Nat) (ocrEngine : String) : String × List Vectorizer :=
  match lookupVectorizer vs modelName with
  | some v => (v.id, vs)
  | none => (freshId, getOrCreateCommit vs none modelName freshId chunkSize ocrEngine)

/-- Uniform outcome of a handler: a typed 200 body, a 400 body, or a 404
body. -/
inductive ApiResult (α : Type) where
  | ok (a : α)
  | badRequest (msg : String)
  | notFound (msg : String)
deriving DecidableEq

/-- Body of `ConvertDocumentResponse` as produced by the two synchronous
conversion handlers. -/
structure ConvertResp where
  task_id : String
  status : String
  message : String
  document_id : String
  pages : Nat
  format : String
deriving DecidableEq

/-- Body of `TaskStatusResponse` as produced by the async handler. -/
structure TaskResp where
  task_id : String
  status : String
  message : String
deriving DecidableEq

/-- Body of `ProgressCallbackResponse`. -/
structure ProgressResp where
  task_id : String
  progress : Int
deriving DecidableEq

/-- Body of the result-retrieval response: task fields joined with the
document fields, plus the (optional) reassembled content text. -/
structure ResultResp where
  task_id : String
  status : String
  message : Option String
  progress : Int
  error : Option String
  document_id : String
  pages : Nat
  format : String
  content : Option (List Char)
deriving DecidableEq

/-- JSON.stringify(\x7bsource: 'url'\x7d), the placeholder stored as the
content of every URL-sync document (`src/index.ts` line 1129). -/
def urlPlaceholder : String := "\x7b\"source\":\"url\"\x7d"

/-- Handler `POST /v1alpha/convert/source` (`src/index.ts` lines
1106-1175): validate, insert a document with the placeholder content,
insert a completed task, insert one source row per URL. -/
def convertSource (db : DB) (sources : List String) (taskId documentId : String)
    (now : Nat) : ApiResult ConvertResp × DB :=
  if sources.isEmpty then (.badRequest "Invalid sources provided", db)
  else
    let doc : Document :=
      ⟨documentId, "url-document", "json", sources.length, some urlPlaceholder.toList, none⟩
    let task : Task :=
      ⟨taskId, "completed", documentId, 0, some "Document conversion started", none, now⟩
    let db1 : DB :=
      { db with
        documents := db.documents ++ [doc],
        tasks := db.tasks ++ [task],
        sources := db.sources ++ sources.map (fun u => ⟨documentId, u⟩) }
    (.ok ⟨taskId, "completed", "Document conversion started", documentId,
          sources.length, "json"⟩, db1)

/-- One uploaded file as the handler sees it: name, byte size, and the
text that `file.text()` yields. -/
structure FileInput where
  name : String
  size : Nat
  text : List Char
deriving DecidableEq

/-- Handler `POST /v1alpha/convert/file` (`src/index.ts` lines 1178-1331),
with the threshold constant `CHUNK_SIZE_TOKENS` as parameter `T`:
validate the file list, size-check `files[0]`, read `files[0]`'s text,
insert the document (content inline iff it fits the threshold), insert
the chunk rows otherwise, insert a completed task, look up or insert the
vectorizer for the model, and link it to the document. -/
def convertFileT (T : Nat) (db : DB) (files : List FileInput)
    (format modelName ocrEngine taskId documentId freshVecId : String)
    (now : Nat) : ApiResult ConvertResp × DB :=
  match files with
  | [] => (.badRequest "No files provided", db)
  | file :: rest =>
    if file.size > MAX_FILE_SIZE_MB * 1024 * 1024 then
      (.badRequest "File size exceeds the limit", db)
    else
      let contentText := file.text
      let doc : Document :=
        ⟨documentId, file.name, format, (file :: rest).length, inlineStored contentText T, none⟩
      let db1 : DB := { db with documents := db.documents ++ [doc] }
      let db2 : DB := { db1 with chunks := db1.chunks ++ writeChunksLoop documentId contentText T }
      let task : Task :=
        ⟨taskId, "completed", documentId, 0, some "Files processed successfully", none, now⟩
      let db3 : DB := { db2 with tasks := db2.tasks ++ [task] }
      let vec := getOrCreateVectorizer db3.vectorizers modelName freshVecId T ocrEngine
      let db4 : DB := { db3 with vectorizers := vec.2 }
      let db5 : DB :=
        { db4 with
          documents := db4.documents.map (fun d =>
            if d.id = documentId then { d with vectorizerId := some vec.1 } else d) }
      (.ok ⟨taskId, "completed", "Files processed successfully", documentId,
            (file :: rest).length, format⟩, db5)

/-- Handler `POST /v1alpha/convert/source/async` (`src/index.ts` lines
1334-1436): validate, look up or insert the vectorizer eagerly, insert a
document without content but with the vectorizer linked, insert a pending
task, insert one source row per URL. -/
def convertAsync (db : DB) (sources : List String)
    (modelName ocrEngine taskId documentId freshVecId : String)
    (now : Nat) : ApiResult TaskResp × DB :=
  if sources.isEmpty then (.badRequest "Invalid sources provided", db)
  else
    let vec := getOrCreateVectorizer db.vectorizers modelName freshVecId CHUNK_SIZE_TOKENS ocrEngine
    let doc : Document :=
      ⟨documentId, "async-document", "json", sources.length, none, some vec.1⟩
    let task : Task :=
      ⟨taskId, "pending", documentId, 0, some "Document conversion queued", none, now⟩
    let db1 : DB :=
      { db with
        vectorizers := vec.2,
        documents := db.documents ++ [doc],
        tasks := db.tasks ++ [task],
        sources := db.sources ++ sources.map (fun u => ⟨documentId, u⟩) }
    (.ok ⟨taskId, "pending", "Document conversion queued"⟩, db1)

/-- Request body of `POST /v1alpha/callback/task/progress`; `none` models
an omitted (undefined) field. -/
structure ProgressReq where
  task_id : String
  progress : Option Int
  message : Option String
  error : Option String
  status : Option String
deriving DecidableEq

/-- The row rewrite of the UPDATE in the progress handler, for a request
carrying progress value `p`: `progress` and `updated_at` are overwritten;
`message`, `error` and `status` coalesce with their previous values after
the JS `|| null` collapsing of the incoming fields. -/
def updatedTask (req : ProgressReq) (p : Int) (now : Nat) (t : Task) : Task :=
  { t with
    progress := p,
    message := sqlCoalesce (jsOrNull req.message) t.message,
    error := sqlCoalesce (jsOrNull req.error) t.error,
    status := match jsOrNull req.status with
              | some s => s
              | none => t.status,
    updatedAt := now }

/-- Handler `POST /v1alpha/callback/task/progress` (`src/index.ts` lines
1576-1635): reject when `task_id` is falsy or `progress` is undefined;
otherwise run one UPDATE that sets `progress` unconditionally, coalesces
`message`/`error`/`status` with their previous values (after JS `|| null`
collapsing), refreshes `updated_at`, and report 404 when zero rows were
affected. -/
def progressCallback (db : DB) (req : ProgressReq) (now : Nat) :
    ApiResult ProgressResp × DB :=
  if req.task_id = "" ∨ req.progress = none then (.badRequest "Invalid progress data", db)
  else
    match req.progress with
    | none => (.badRequest "Invalid progress data", db)
    | some p =>
      let updated := db.tasks.map (fun t =>
        if t.id = req.task_id then updatedTask req p now t else t)
      let changes := (db.tasks.filter (fun t => t.id == req.task_id)).length
      let db1 : DB := { db with tasks := updated }
      (if changes = 0 then .notFound "Task not found" else .ok ⟨req.task_id, p⟩, db1)

/-- Handler `GET /v1alpha/result/:taskId` (`src/index.ts` lines
1495-1573): join the task with its document (404 when either is
missing), then map the content through `resultContent`. -/
def getResult (db : DB) (taskId : String) : ApiResult ResultResp :=
  if taskId = "" then .badRequest "Invalid task ID"
  else
    match db.tasks.find? (fun t => t.id == taskId) with
    | none => .notFound "Task or document not found"
    | some t =>
      match db.documents.find? (fun d => d.id == t.documentId) with
      | none => .notFound "Task or document not found"
      | some d =>
        .ok ⟨t.id, t.status, t.message, t.progress, t.error,
             d.id, d.pages, d.format, resultContent d.content d.id db.chunks⟩

/-- Bootstrap `ensureDefaultVectorizer` (`src/index.ts` lines 1719-1758):
the same lookup-or-insert sequence, with the default model name and a
fixed `easyocr` engine. -/
def ensureDefaultVectorizer (db : DB) (defaultModel freshId : String) : DB :=
  { db with
    vectorizers := (getOrCreateVectorizer db.vectorizers defaultModel freshId
        CHUNK_SIZE_TOKENS "easyocr").2 }

/-- One state-mutating core operation, with the request-scoped fresh ids
and the clock tick as data. -/
inductive Op where
  | source (sources : List String) (taskId documentId : String) (now : Nat)
  | file (files : List FileInput)
      (format modelName ocrEngine taskId documentId freshVecId : String) (now : Nat)
  | async (sources : List String)
      (modelName ocrEngine taskId documentId freshVecId : String) (now : Nat)
  | progress (req : ProgressReq) (now : Nat)
  | ensureDefault (modelName freshId : String)
deriving DecidableEq

/-- State transition of one core operation. -/
def applyOp (db : DB) : Op → DB
  | .source s t d n => (convertSource db s t d n).2
  | .file fs f m o t d v n => (convertFileT CHUNK_SIZE_TOKENS db fs f m o t d v n).2
  | .progress r n => (progressCallback db r n).2
  | .async s m o t d v n => (convertAsync db s m o t d v n).2
  | .ensureDefault m v => ensureDefaultVectorizer db m v

/-- Database reached by a sequence of core operations from a fresh
deployment. -/
def runOps (ops : List Op) : DB := ops.foldl applyOp initDB

/-- Progress bound carried by an operation: a progress callback whose
progress value lies in 0..100 (or is absent), or any other operation. -/
def opProgressOK : Op → Bool
  | .progress r _ =>
      match r.progress with
      | some p => decide (0 ≤ p ∧ p ≤ 100)
      | none => true
  | _ => true

/-- Number of vectorizer rows recorded for a model name. -/
def countModel (vs : List Vectorizer) (m : String) : Nat :=
  (vs.filter (fun v => v.modelName == m)).length

/-- Conjunction stated by claim C2: over-threshold content is split into
exactly `ceil(L/T)` rows (the count `n` satisfies `L ≤ n*T` and
`(n-1)*T < L`, which characterises the ceiling for `L > 0`); row `i`
holds the `i`-th `T`-sized slice under key `(docId, i)`; every slice has
at most `T` characters, and exactly `T` except possibly the last; the
rows concatenate back to the content; nothing is stored inline.  At or
below the threshold the content is stored inline and no rows exist. -/
def ChunkSplitSpec (C : List Char) (docId : String) (T : Nat) : Prop :=
  (C.length > T →
    (writeChunksLoop docId C T).length = jsCeilDiv C.length T
    ∧ C.length ≤ jsCeilDiv C.length T * T
    ∧ (jsCeilDiv C.length T - 1) * T < C.length
    ∧ (∀ i, i < jsCeilDiv C.length T →
        (writeChunksLoop docId C T)[i]? = some ⟨docId, i, (C.drop (i * T)).take T⟩)
    ∧ (∀ i, i + 1 < jsCeilDiv C.length T → ((C.drop (i * T)).take T).length = T)
    ∧ (∀ i, ((C.drop (i * T)).take T).length ≤ T)
    ∧ ((writeChunksLoop docId C T).map Chunk.content).flatten = C
    ∧ inlineStored C T = none)
  ∧ (C.length ≤ T → writeChunksLoop docId C T = [] ∧ inlineStored C T = some C)

/-! Helper lemmas about the chunk arithmetic, the sort, and list plumbing. -/

theorem jsCeilDiv_mul_ge (L T : Nat) (hT : 0 < T) : L ≤ jsCeilDiv L T * T := by
  have h : T * ((L + T - 1) / T) + (L + T - 1) % T = L + T - 1 := Nat.div_add_mod (L + T - 1) T
  have hm : (L + T - 1) % T < T := Nat.mod_lt _ hT
  rw [Nat.mul_comm] at h
  unfold jsCeilDiv
  omega

theorem mul_lt_of_lt_jsCeilDiv (L T i : Nat) (hT : 0 < T) (hi : i < jsCeilDiv L T) :
    i * T < L := by
  have h2 : (i + 1) * T ≤ L + T - 1 := (Nat.le_div_iff_mul_le hT).mp hi
  rw [Nat.succ_mul] at h2
  omega

theorem jsCeilDiv_pos (L T : Nat) (hT : 0 < T) (hL : 0 < L) : 0 < jsCeilDiv L T := by
  have h1 : 1 * T ≤ L + T - 1 := by omega
  exact (Nat.le_div_iff_mul_le hT).mpr h1

theorem chunkSlice_take (l : List Char) (T i : Nat) :
    (l.drop (i * T)).take (min ((i + 1) * T) l.length - i * T) = (l.drop (i * T)).take T := by
  by_cases h : (i + 1) * T ≤ l.length
  · rw [Nat.min_eq_left h, Nat.succ_mul, Nat.add_sub_cancel_left]
  · push_neg at h
    rw [Nat.min_eq_right (Nat.le_of_lt h)]
    rw [Nat.succ_mul] at h
    have hlen : (l.drop (i * T)).length = l.length - i * T := List.length_drop _ _
    rw [List.take_of_length_le (by omega), List.take_of_length_le (by omega)]

theorem flatten_slices (l : List Char) (T : Nat) (k : Nat) :
    ((List.range k).map (fun i => (l.drop (i * T)).take T)).flatten = l.take (k * T) := by
  induction k with
  | zero => simp
  | succ k ih =>
    rw [List.range_succ, List.map_append, List.flatten_append, ih, Nat.succ_mul,
      List.take_add]
    simp

theorem writeChunks_flatten (docId : String) (l : List Char) (T : Nat)
    (hT : 0 < T) (hL : l.length > T) :
    ((writeChunksLoop docId l T).map Chunk.content).flatten = l := by
  unfold writeChunksLoop
  rw [if_pos hL, List.map_map]
  have hfun : (Chunk.content ∘ fun i =>
      (⟨docId, i, (l.drop (i * T)).take (min ((i + 1) * T) l.length - i * T)⟩ : Chunk))
      = fun i => (l.drop (i * T)).take T := by
    funext i
    exact chunkSlice_take l T i
  rw [hfun, flatten_slices]
  exact List.take_of_length_le (jsCeilDiv_mul_ge _ _ hT)

theorem sortChunks_of_pairwise (l : List Chunk)
    (h : l.Pairwise (fun a b => a.chunkIndex ≤ b.chunkIndex)) : sortChunks l = l := by
  induction l with
  | nil => rfl
  | cons c ds ih =>
    have hstep : sortChunks (c :: ds) = insertSorted c (sortChunks ds) := rfl
    rw [hstep, ih (List.Pairwise.of_cons h)]
    cases ds with
    | nil => rfl
    | cons d ds' =>
      have hcd : c.chunkIndex ≤ d.chunkIndex :=
        (List.pairwise_cons.mp h).1 d (List.mem_cons_self d ds')
      simp [insertSorted, hcd]

theorem writeChunks_pairwise (docId : String) (l : List Char) (T : Nat) :
    (writeChunksLoop docId l T).Pairwise (fun a b => a.chunkIndex ≤ b.chunkIndex) := by
  unfold writeChunksLoop
  split
  · exact List.Pairwise.map _ (fun a b h => Nat.le_of_lt h) (List.pairwise_lt_range _)
  · exact List.Pairwise.nil

theorem writeChunks_filter_self (docId : String) (l : List Char) (T : Nat) :
    (writeChunksLoop docId l T).filter (fun c => c.documentId == docId)
      = writeChunksLoop docId l T := by
  refine List.filter_eq_self.mpr ?_
  intro c hc
  unfold writeChunksLoop at hc
  by_cases h : l.length > T
  · rw [if_pos h] at hc
    obtain ⟨i, _, rfl⟩ := List.mem_map.mp hc
    exact beq_self_eq_true docId
  · rw [if_neg h] at hc
    cases hc

theorem writeChunks_length (docId : String) (l : List Char) (T : Nat) (hL : l.length > T) :
    (writeChunksLoop docId l T).length = jsCeilDiv l.length T := by
  unfold writeChunksLoop
  rw [if_pos hL, List.length_map, List.length_range]

theorem resultContent_inline (c : List Char) (hc : c ≠ []) (docId : String)
    (tbl : List Chunk) : resultContent (some c) docId tbl = some c := by
  unfold resultContent
  have ht : jsTruthy (some c) = true := by
    simp [jsTruthy, List.isEmpty_eq_false.mpr hc]
  simp [ht]

theorem resultContent_chunks (docId : String) (l : List Char) (T : Nat)
    (tbl : List Chunk) (hT : 0 < T) (hL : l.length > T) (hdid : docId ≠ "")
    (htbl : tbl.filter (fun c => c.documentId == docId) = writeChunksLoop docId l T) :
    resultContent none docId tbl = some l := by
  unfold resultContent
  have hbeq : (docId == "") = false := beq_false_of_ne hdid
  have hlen : (writeChunksLoop docId l T).length = jsCeilDiv l.length T :=
    writeChunks_length docId l T hL
  have hpos : 0 < (writeChunksLoop docId l T).length := by
    rw [hlen]
    exact jsCeilDiv_pos _ _ hT (by omega)
  have hsort : sortChunks (writeChunksLoop docId l T) = writeChunksLoop docId l T :=
    sortChunks_of_pairwise _ (writeChunks_pairwise docId l T)
  have hflat : ((writeChunksLoop docId l T).map Chunk.content).flatten = l :=
    writeChunks_flatten docId l T hT hL
  have hne : l ≠ [] := by
    intro h
    rw [h] at hL
    simp at hL
  have hemp : l.isEmpty = false := List.isEmpty_eq_false.mpr hne
  simp only [jsTruthy, Bool.not_false, hbeq, Bool.and_self, if_true, htbl, hsort, hflat, hemp]
  rw [if_pos hpos]
  simp [hemp]

theorem resultContent_roundtrip (C : List Char) (T : Nat) (docId : String)
    (tbl : List Chunk) (hT : 0 < T) (hC : C ≠ []) (hdid : docId ≠ "")
    (htbl : tbl.filter (fun c => c.documentId == docId) = writeChunksLoop docId C T) :
    resultContent (inlineStored C T) docId tbl = some C := by
  unfold inlineStored
  by_cases h : C.length ≤ T
  · rw [if_pos h]
    exact resultContent_inline C hC docId tbl
  · rw [if_neg h]
    exact resultContent_chunks docId C T tbl hT (by omega) hdid htbl

theorem find?_append_of_none {α : Type} (p : α → Bool) (l1 l2 : List α)
    (h : ∀ a ∈ l1, p a = false) : (l1 ++ l2).find? p = l2.find? p := by
  induction l1 with
  | nil => rfl
  | cons a l ih =>
    rw [List.cons_append, List.find?_cons_of_neg _ (by simp [h a (List.mem_cons_self a l)])]
    exact ih (fun b hb => h b (List.mem_cons_of_mem a hb))

theorem find?_append_last {α : Type} (p : α → Bool) (l : List α) (x : α)
    (h : ∀ a ∈ l, p a = false) (hx : p x = true) : (l ++ [x]).find? p = some x := by
  rw [find?_append_of_none p l [x] h]
  exact List.find?_cons_of_pos _ hx

theorem map_id_of_eq {α : Type} (l : List α) (f : α → α) (h : ∀ a ∈ l, f a = a) :
    l.map f = l := by
  induction l with
  | nil => rfl
  | cons a l ih =>
    rw [List.map_cons, h a (List.mem_cons_self a l),
      ih (fun b hb => h b (List.mem_cons_of_mem a hb))]

/-! Claim theorems. -/

/-- C2: the write path of the file handler creates exactly `ceil(L/T)`
chunk rows for over-threshold content, chunk `i` being the substring
`[i*T, min((i+1)*T, L))` (equal to `take T` of the `i*T`-drop), every
chunk of exactly `T` characters except possibly the last, keyed by
`(documentId, i)`; content of length at most `T` is stored inline with
no chunk rows. -/
theorem chunk_splitting_algorithm (C : List Char) (docId : String) (T : Nat)
    (hT : 0 < T) : ChunkSplitSpec C docId T := by
  constructor
  · intro hgt
    have hL : 0 < C.length := by omega
    have hn : 0 < jsCeilDiv C.length T := jsCeilDiv_pos _ _ hT hL
    refine ⟨writeChunks_length docId C T hgt, jsCeilDiv_mul_ge _ _ hT, ?_, ?_, ?_, ?_,
      writeChunks_flatten docId C T hT hgt, if_neg (by omega)⟩
    · exact mul_lt_of_lt_jsCeilDiv _ _ _ hT (by omega)
    · intro i hi
      have hsl := chunkSlice_take C T i
      simp [writeChunksLoop, hgt, List.getElem?_map, List.getElem?_range, hi, hsl]
    · intro i hi
      have hlt : (i + 1) * T < C.length := mul_lt_of_lt_jsCeilDiv _ _ _ hT hi
      rw [Nat.succ_mul] at hlt
      rw [List.length_take, List.length_drop]
      omega
    · intro i
      rw [List.length_take]
      omega
  · intro hle
    exact ⟨if_neg (by omega), if_pos hle⟩

/-- Witness for C2 at content "abcde" with threshold 2: three chunks
"ab", "cd", "e". -/
theorem chunk_splitting_algorithm_witness :
    0 < 2 ∧ ChunkSplitSpec "abcde".toList "d" 2 :=
  ⟨by decide, chunk_splitting_algorithm "abcde".toList "d" 2 (by decide)⟩

/-- C1 counterexample: writing the empty content (length 0, below any
threshold) through the file handler and retrieving the task's result
yields a response whose content field is ABSENT (`none`), because the
empty string is JS-falsy in both the inline check and the final
`content ? \x7btext: content\x7d : undefined` mapping — not the content
text `""` the claim requires. -/
theorem roundtrip_empty_content_cx :
    getResult (convertFileT CHUNK_SIZE_TOKENS initDB [⟨"a.txt", 0, []⟩] "json"
        "gpt-4o-mini" "easyocr" "t1" "d1" "v1" 0).2 "t1"
      = .ok ⟨"t1", "completed", some "Files processed successfully", 0, none,
             "d1", 1, "json", none⟩
    ∧ some ([] : List Char) ≠ none := by
  constructor
  · decide
  · decide

/-- C1 (amended): for every NON-EMPTY content C and threshold T > 0,
writing C through the file handler (inline when `|C| ≤ T`, chunked
otherwise) and then retrieving the result for that document's task
returns exactly C as the content text; the amendment drops the edge
length `|C| = 0`, where the retrieval returns no content at all. -/
theorem roundtrip_nonempty_content (C : List Char) (T : Nat)
    (name fmt model ocr tid did vid : String) (sz now : Nat)
    (hT : 0 < T) (hC : C ≠ []) (htid : tid ≠ "") (hdid : did ≠ "")
    (hsz : sz ≤ MAX_FILE_SIZE_MB * 1024 * 1024) :
    getResult (convertFileT T initDB [⟨name, sz, C⟩] fmt model ocr tid did vid now).2 tid
      = .ok ⟨tid, "completed", some "Files processed successfully", 0, none,
             did, 1, fmt, some C⟩ := by
  have hlim : ¬ (sz > MAX_FILE_SIZE_MB * 1024 * 1024) := by omega
  simp only [convertFileT, if_neg hlim, initDB, getOrCreateVectorizer, lookupVectorizer,
    List.find?_nil, List.nil_append, List.map_cons, List.map_nil, if_pos rfl,
    List.length_cons, List.length_nil, ite_true]
  unfold getResult
  rw [if_neg htid]
  have hrt := resultContent_roundtrip C T did (writeChunksLoop did C T) hT hC hdid
    (writeChunks_filter_self did C T)
  simp [List.find?_cons, List.find?_nil, beq_self_eq_true, hrt]

/-- State effect of a valid progress callback: every task row whose id
matches is rewritten through `updatedTask`, all other rows are kept. -/
theorem progressCallback_state (db : DB) (req : ProgressReq) (now : Nat) (p : Int)
    (hp : req.progress = some p) (hid : req.task_id ≠ "") :
    (progressCallback db req now).2.tasks
      = db.tasks.map (fun t => if t.id = req.task_id then updatedTask req p now t else t) := by
  have hcond : ¬ (req.task_id = "" ∨ req.progress = none) := by
    rintro (h | h)
    · exact hid h
    · rw [hp] at h
      cases h
  unfold progressCallback
  rw [if_neg hcond]
  simp only [hp]

/-- Other relations are untouched by a progress callback. -/
theorem progressCallback_rest (db : DB) (req : ProgressReq) (now : Nat) :
    (progressCallback db req now).2.documents = db.documents
    ∧ (progressCallback db req now).2.sources = db.sources
    ∧ (progressCallback db req now).2.chunks = db.chunks
    ∧ (progressCallback db req now).2.vectorizers = db.vectorizers := by
  unfold progressCallback
  split
  · exact ⟨rfl, rfl, rfl, rfl⟩
  · split
    · exact ⟨rfl, rfl, rfl, rfl⟩
    · exact ⟨rfl, rfl, rfl, rfl⟩

/-- Reassembly of a document with neither inline content nor chunk rows
yields no content. -/
theorem resultContent_none_empty (docId : String) (tbl : List Chunk)
    (h : tbl.filter (fun c => c.documentId == docId) = []) :
    resultContent none docId tbl = none := by
  unfold resultContent
  rw [h]
  simp [sortChunks, jsTruthy, ite_self]

/-- C4: a progress update whose `task_id` matches no existing task row
reports NotFound (zero rows affected) and performs no write: the
returned database is the input database, every relation included. -/
theorem progress_update_notfound_no_write (db : DB) (req : ProgressReq) (now : Nat)
    (p : Int) (hp : req.progress = some p) (hid : req.task_id ≠ "")
    (habs : ∀ t ∈ db.tasks, t.id ≠ req.task_id) :
    progressCallback db req now = (.notFound "Task not found", db) := by
  have hcond : ¬ (req.task_id = "" ∨ req.progress = none) := by
    rintro (h | h)
    · exact hid h
    · rw [hp] at h
      cases h
  have hfil : db.tasks.filter (fun t => t.id == req.task_id) = [] :=
    List.filter_eq_nil_iff.mpr (fun t ht => by simp [beq_false_of_ne (habs t ht)])
  have hmap : db.tasks.map (fun t =>
      if t.id = req.task_id then updatedTask req p now t else t) = db.tasks :=
    map_id_of_eq _ _ (fun t ht => if_neg (habs t ht))
  unfold progressCallback
  rw [if_neg hcond, hp]
  simp [hfil, hmap]

/-- Witness for C4: an update for the unknown id "t9" against a database
holding only task "t2" reports NotFound and leaves the database intact. -/
theorem progress_update_notfound_no_write_witness :
    (⟨"t9", some 10, none, none, none⟩ : ProgressReq).progress = some 10
    ∧ ("t9" : String) ≠ ""
    ∧ progressCallback ⟨[], [⟨"t2", "pending", "d2", 0, none, none, 0⟩], [], [], []⟩
        ⟨"t9", some 10, none, none, none⟩ 5
      = (.notFound "Task not found",
         ⟨[], [⟨"t2", "pending", "d2", 0, none, none, 0⟩], [], [], []⟩) :=
  ⟨rfl, by decide,
    progress_update_notfound_no_write ⟨[], [⟨"t2", "pending", "d2", 0, none, none, 0⟩], [], [], []⟩
      ⟨"t9", some 10, none, none, none⟩ 5 10 rfl (by decide) (by decide)⟩

/-- C5: from any table holding at most one row for model name `m` (zero
when `m` is previously unseen), two sequential lookup-or-insert calls for
`m` return the same vectorizer id, and exactly one row for `m` remains. -/
theorem vectorizer_get_or_create_idempotent (vs : List Vectorizer) (m id1 id2 : String)
    (cs1 cs2 : Nat) (o1 o2 : String) (h : countModel vs m ≤ 1) :
    (getOrCreateVectorizer vs m id1 cs1 o1).1
      = (getOrCreateVectorizer (getOrCreateVectorizer vs m id1 cs1 o1).2 m id2 cs2 o2).1
    ∧ countModel (getOrCreateVectorizer (getOrCreateVectorizer vs m id1 cs1 o1).2 m id2 cs2 o2).2 m
      = 1 := by
  unfold getOrCreateVectorizer lookupVectorizer
  cases hfind : vs.find? (fun v => v.modelName == m) with
  | some v =>
    simp only [hfind]
    constructor
    · trivial
    · have hmem : v ∈ vs := List.mem_of_find?_eq_some hfind
      have hpred := List.find?_some hfind
      have hmemf : v ∈ vs.filter (fun v => v.modelName == m) :=
        List.mem_filter.mpr ⟨hmem, hpred⟩
      have hge : 0 < countModel vs m := by
        unfold countModel
        exact List.length_pos.mpr (fun hnil => by rw [hnil] at hmemf; cases hmemf)
      unfold countModel at h hge ⊢
      omega
  | none =>
    have hall : ∀ a ∈ vs, (a.modelName == m) = false := by
      intro a ha
      have := List.find?_eq_none.mp hfind a ha
      simpa using this
    have hnv : ((⟨id1, m, "openai", cs1, o1, defaultParametersJson⟩ : Vectorizer).modelName == m)
        = true := beq_self_eq_true m
    have hfind2 : (getOrCreateCommit vs none m id1 cs1 o1).find? (fun v => v.modelName == m)
        = some ⟨id1, m, "openai", cs1, o1, defaultParametersJson⟩ := by
      unfold getOrCreateCommit
      exact find?_append_last _ vs _ hall hnv
    simp only [hfind, hfind2]
    constructor
    · trivial
    · unfold countModel getOrCreateCommit
      rw [List.filter_append, List.filter_eq_nil_iff.mpr (fun a ha => by simp [hall a ha])]
      simp [hnv]

/-- Witness for C5: on an empty table, two calls for "gpt-4o-mini" both
yield id "id1" and one row remains. -/
theorem vectorizer_get_or_create_idempotent_witness :
    countModel [] "gpt-4o-mini" ≤ 1
    ∧ ((getOrCreateVectorizer [] "gpt-4o-mini" "id1" 1000 "easyocr").1
        = (getOrCreateVectorizer (getOrCreateVectorizer [] "gpt-4o-mini" "id1" 1000 "easyocr").2
            "gpt-4o-mini" "id2" 1000 "easyocr").1
      ∧ countModel (getOrCreateVectorizer
            (getOrCreateVectorizer [] "gpt-4o-mini" "id1" 1000 "easyocr").2
            "gpt-4o-mini" "id2" 1000 "easyocr").2 "gpt-4o-mini" = 1) :=
  ⟨by decide,
    vectorizer_get_or_create_idempotent [] "gpt-4o-mini" "id1" "id2" 1000 1000
      "easyocr" "easyocr" (by decide)⟩

/-- C6: the handlers' lookup-or-insert decomposes into a lookup phase and
a blind-insert commit phase; interleaving two calls for the same unseen
model name, with both lookups reading the table before either insert,
leaves TWO persisted rows for that name — the `vectorizers` schema has no
uniqueness constraint on `model_name`, so nothing stops the second
insert, while the sequential composition leaves one row. -/
theorem vectorizer_race_two_rows :
    (∀ (vs : List Vectorizer) (m freshId : String) (cs : Nat) (o : String),
      (getOrCreateVectorizer vs m freshId cs o).2
        = getOrCreateCommit vs (lookupVectorizer vs m) m freshId cs o)
    ∧ countModel
        (getOrCreateCommit
          (getOrCreateCommit [] (lookupVectorizer [] "text-embed") "text-embed" "id1"
            1000 "easyocr")
          (lookupVectorizer [] "text-embed") "text-embed" "id2" 1000 "easyocr")
        "text-embed" = 2
    ∧ countModel
        (getOrCreateVectorizer (getOrCreateVectorizer [] "text-embed" "id1" 1000 "easyocr").2
          "text-embed" "id2" 1000 "easyocr").2 "text-embed" = 1 := by
  refine ⟨?_, by decide, by decide⟩
  intro vs m freshId cs o
  unfold getOrCreateVectorizer
  cases h : lookupVectorizer vs m <;> simp [getOrCreateCommit, h]

/-- C10: every URL-sync ingestion stores exactly the literal string
JSON.stringify(\x7bsource: 'url'\x7d) as the document's content —
regardless of the submitted sources — and result retrieval for the
created task returns exactly that text, never content derived from the
URLs and never an absent content. -/
theorem url_sync_placeholder_content (db : DB) (sources : List String)
    (tid did : String) (now : Nat)
    (hs : sources ≠ []) (htid : tid ≠ "")
    (htfresh : ∀ t ∈ db.tasks, t.id ≠ tid)
    (hdfresh : ∀ d ∈ db.documents, d.id ≠ did) :
    ((convertSource db sources tid did now).2.documents.find? (fun d => d.id == did)).map
        Document.content = some (some urlPlaceholder.toList)
    ∧ getResult (convertSource db sources tid did now).2 tid
      = .ok ⟨tid, "completed", some "Document conversion started", 0, none, did,
             sources.length, "json", some urlPlaceholder.toList⟩ := by
  have hie : sources.isEmpty = false := by
    cases sources with
    | nil => cases hs rfl
    | cons a l => rfl
  have hstate : (convertSource db sources tid did now).2
      = { db with
          documents := db.documents
            ++ [⟨did, "url-document", "json", sources.length, some urlPlaceholder.toList, none⟩],
          tasks := db.tasks
            ++ [⟨tid, "completed", did, 0, some "Document conversion started", none, now⟩],
          sources := db.sources ++ sources.map (fun u => ⟨did, u⟩) } := by
    unfold convertSource
    rw [if_neg (by simp [hie])]
  have h1 := find?_append_last (fun t => t.id == tid) db.tasks
    ⟨tid, "completed", did, 0, some "Document conversion started", none, now⟩
    (fun t ht => beq_false_of_ne (htfresh t ht)) (beq_self_eq_true tid)
  have h2 := find?_append_last (fun d => d.id == did) db.documents
    ⟨did, "url-document", "json", sources.length, some urlPlaceholder.toList, none⟩
    (fun d hd => beq_false_of_ne (hdfresh d hd)) (beq_self_eq_true did)
  have h3 : resultContent (some urlPlaceholder.data) did db.chunks
      = some urlPlaceholder.data :=
    resultContent_inline urlPlaceholder.data (by decide) did db.chunks
  constructor
  · rw [hstate]
    rw [h2]
    rfl
  · rw [hstate]
    have hnone1 : db.tasks.find? (fun t => t.id == tid) = none :=
      List.find?_eq_none.mpr (fun t ht => by simp [beq_false_of_ne (htfresh t ht)])
    have hnone2 : db.documents.find? (fun d => d.id == did) = none :=
      List.find?_eq_none.mpr (fun d hd => by simp [beq_false_of_ne (hdfresh d hd)])
    simp [getResult, htid, h1, h2, hnone1, hnone2, h3]

/-- Witness for C10: one source URL against the empty database. -/
theorem url_sync_placeholder_content_witness :
    (["https://a/b.pdf"] : List String) ≠ []
    ∧ ("t1" : String) ≠ ""
    ∧ (((convertSource initDB ["https://a/b.pdf"] "t1" "d1" 0).2.documents.find?
          (fun d => d.id == "d1")).map Document.content = some (some urlPlaceholder.toList)
      ∧ getResult (convertSource initDB ["https://a/b.pdf"] "t1" "d1" 0).2 "t1"
        = .ok ⟨"t1", "completed", some "Document conversion started", 0, none, "d1",
               1, "json", some urlPlaceholder.toList⟩) :=
  ⟨by decide, by decide,
    url_sync_placeholder_content initDB ["https://a/b.pdf"] "t1" "d1" 0 (by decide)
      (by decide) (by decide) (by decide)⟩

/-- C3 counterexample: after async creation (pending) and a callback with
progress=50, a second callback carrying ONLY status=completed (progress
omitted) is rejected as invalid input (`progress === undefined`) and
performs no write, so the task remains at progress 50 and status
"pending" — not the claimed \x7bprogress: 50, status: completed\x7d. -/
theorem task_update_coalesce_cx :
    (let db1 := (convertAsync initDB ["https://a/b.pdf"] "gpt-4o-mini" "easyocr"
        "t1" "d1" "v1" 0).2
     let s2 := progressCallback db1 ⟨"t1", some 50, none, none, none⟩ 1
     let s3 := progressCallback s2.2 ⟨"t1", none, none, none, some "completed"⟩ 2
     s3.1 = .badRequest "Invalid progress data"
     ∧ s3.2 = s2.2
     ∧ s3.2.tasks.map (fun t => (t.progress, t.status)) = [(50, "pending")]) := by
  decide

/-- C3 (amended): a callback must carry a progress value — one omitting
it is rejected before any write; given that, any omitted field among
message, error and status retains its previous stored value, `updatedAt`
is refreshed, and the sequence create(pending) → update(progress=50) →
update(progress=50, status=completed) ends in progress 50 and status
"completed" with message and error unchanged from creation. -/
theorem task_update_coalesce_amended :
    (∀ (db : DB) (req : ProgressReq) (now : Nat) (p : Int) (t : Task),
      req.progress = some p → req.task_id ≠ "" → t ∈ db.tasks → t.id = req.task_id →
      updatedTask req p now t ∈ (progressCallback db req now).2.tasks
      ∧ (updatedTask req p now t).progress = p
      ∧ (updatedTask req p now t).updatedAt = now
      ∧ (req.message = none → (updatedTask req p now t).message = t.message)
      ∧ (req.error = none → (updatedTask req p now t).error = t.error)
      ∧ (req.status = none → (updatedTask req p now t).status = t.status)
      ∧ (∀ s, req.status = some s → s ≠ "" → (updatedTask req p now t).status = s))
    ∧ (∀ (sources : List String) (model ocr tid did vid : String) (n0 n1 n2 : Nat),
      sources ≠ [] → tid ≠ "" →
      (progressCallback
          (progressCallback (convertAsync initDB sources model ocr tid did vid n0).2
            ⟨tid, some 50, none, none, none⟩ n1).2
          ⟨tid, some 50, none, none, some "completed"⟩ n2).2.tasks
        = [⟨tid, "completed", did, 50, some "Document conversion queued", none, n2⟩]) := by
  constructor
  · intro db req now p t hp hid hmem heq
    rw [progressCallback_state db req now p hp hid]
    refine ⟨?_, rfl, rfl, ?_, ?_, ?_, ?_⟩
    · have hmm := List.mem_map_of_mem
        (fun t => if t.id = req.task_id then updatedTask req p now t else t) hmem
      simp only [heq, eq_self_iff_true, ite_true] at hmm
      exact hmm
    · intro hm
      simp [updatedTask, hm, jsOrNull, sqlCoalesce]
    · intro he
      simp [updatedTask, he, jsOrNull, sqlCoalesce]
    · intro hst
      simp [updatedTask, hst, jsOrNull]
    · intro s hst hne
      simp [updatedTask, hst, jsOrNull, sqlCoalesce, hne]
  · intro sources model ocr tid did vid n0 n1 n2 hs htid
    have hie : sources.isEmpty = false := by
      cases sources with
      | nil => cases hs rfl
      | cons a l => rfl
    have hst1 : (convertAsync initDB sources model ocr tid did vid n0).2.tasks
        = [⟨tid, "pending", did, 0, some "Document conversion queued", none, n0⟩] := by
      unfold convertAsync
      rw [if_neg (by simp [hie])]
      rfl
    rw [progressCallback_state _ _ n2 50 rfl htid, progressCallback_state _ _ n1 50 rfl htid,
      hst1]
    simp [updatedTask, jsOrNull, sqlCoalesce]

/-- Witness for C3's amended sequence with one source from the empty
database, plus the retention part at a concrete update. -/
theorem task_update_coalesce_amended_witness :
    ((⟨"t1", some 7, none, none, none⟩ : ProgressReq).progress = some 7
      ∧ ("t1" : String) ≠ ""
      ∧ (⟨"t1", "pending", "d1", 0, some "m0", some "e0", 0⟩ : Task)
          ∈ (⟨[], [⟨"t1", "pending", "d1", 0, some "m0", some "e0", 0⟩], [], [], []⟩ : DB).tasks
      ∧ (updatedTask ⟨"t1", some 7, none, none, none⟩ 7 9
            ⟨"t1", "pending", "d1", 0, some "m0", some "e0", 0⟩
          ∈ (progressCallback ⟨[], [⟨"t1", "pending", "d1", 0, some "m0", some "e0", 0⟩], [], [], []⟩
              ⟨"t1", some 7, none, none, none⟩ 9).2.tasks))
    ∧ (progressCallback
          (progressCallback (convertAsync initDB ["https://a"] "m" "easyocr"
              "t1" "d1" "v1" 0).2
            ⟨"t1", some 50, none, none, none⟩ 1).2
          ⟨"t1", some 50, none, none, some "completed"⟩ 2).2.tasks
        = [⟨"t1", "completed", "d1", 50, some "Document conversion queued", none, 2⟩] :=
  ⟨⟨rfl, by decide, by decide,
      ((task_update_coalesce_amended.1 ⟨[], [⟨"t1", "pending", "d1", 0, some "m0", some "e0", 0⟩], [], [], []⟩
          ⟨"t1", some 7, none, none, none⟩ 9 7
          ⟨"t1", "pending", "d1", 0, some "m0", some "e0", 0⟩ rfl (by decide) (by decide) rfl).1)⟩,
    task_update_coalesce_amended.2 ["https://a"] "m" "easyocr" "t1" "d1" "v1" 0 1 2
      (by decide) (by decide)⟩

/-- C7: a URL-async ingestion with at least one source creates a pending
task; the callback \x7bprogress: 100, status: completed\x7d moves it to
completed; result retrieval then succeeds for that task, and its content
is the document-content-else-chunks reassembly — here absent, since the
async flow stores no document content and writes no chunks. -/
theorem async_scenario_end_to_end (db : DB) (sources : List String)
    (model ocr tid did vid : String) (n0 n1 : Nat)
    (hs : sources ≠ []) (htid : tid ≠ "")
    (htfresh : ∀ t ∈ db.tasks, t.id ≠ tid)
    (hdfresh : ∀ d ∈ db.documents, d.id ≠ did)
    (hcfresh : ∀ c ∈ db.chunks, c.documentId ≠ did) :
    (convertAsync db sources model ocr tid did vid n0).1
      = .ok ⟨tid, "pending", "Document conversion queued"⟩
    ∧ ((convertAsync db sources model ocr tid did vid n0).2.tasks.find?
        (fun t => t.id == tid)).map Task.status = some "pending"
    ∧ ((progressCallback (convertAsync db sources model ocr tid did vid n0).2
          ⟨tid, some 100, none, none, some "completed"⟩ n1).2.tasks.find?
        (fun t => t.id == tid)).map (fun t => (t.status, t.progress))
        = some ("completed", 100)
    ∧ getResult (progressCallback (convertAsync db sources model ocr tid did vid n0).2
          ⟨tid, some 100, none, none, some "completed"⟩ n1).2 tid
      = .ok ⟨tid, "completed", some "Document conversion queued", 100, none, did,
             sources.length, "json", none⟩ := by
  have hie : sources.isEmpty = false := by
    cases sources with
    | nil => cases hs rfl
    | cons a l => rfl
  have hstate : (convertAsync db sources model ocr tid did vid n0).2
      = { db with
          vectorizers := (getOrCreateVectorizer db.vectorizers model vid CHUNK_SIZE_TOKENS ocr).2,
          documents := db.documents ++ [⟨did, "async-document", "json", sources.length, none,
            some (getOrCreateVectorizer db.vectorizers model vid CHUNK_SIZE_TOKENS ocr).1⟩],
          tasks := db.tasks
            ++ [⟨tid, "pending", did, 0, some "Document conversion queued", none, n0⟩],
          sources := db.sources ++ sources.map (fun u => ⟨did, u⟩) } := by
    unfold convertAsync
    rw [if_neg (by simp [hie])]
  have hresp : (convertAsync db sources model ocr tid did vid n0).1
      = .ok ⟨tid, "pending", "Document conversion queued"⟩ := by
    unfold convertAsync
    rw [if_neg (by simp [hie])]
  have hupd : updatedTask ⟨tid, some 100, none, none, some "completed"⟩ 100 n1
      ⟨tid, "pending", did, 0, some "Document conversion queued", none, n0⟩
      = ⟨tid, "completed", did, 100, some "Document conversion queued", none, n1⟩ := by
    simp [updatedTask, jsOrNull, sqlCoalesce]
  have htasks2 : (progressCallback (convertAsync db sources model ocr tid did vid n0).2
        ⟨tid, some 100, none, none, some "completed"⟩ n1).2.tasks
      = db.tasks ++ [⟨tid, "completed", did, 100, some "Document conversion queued", none, n1⟩] := by
    rw [progressCallback_state _ _ n1 100 rfl htid, hstate]
    rw [List.map_append, map_id_of_eq _ _ (fun t ht => if_neg (htfresh t ht))]
    simp [hupd]
  have hdocs2 : (progressCallback (convertAsync db sources model ocr tid did vid n0).2
        ⟨tid, some 100, none, none, some "completed"⟩ n1).2.documents
      = db.documents ++ [⟨did, "async-document", "json", sources.length, none,
          some (getOrCreateVectorizer db.vectorizers model vid CHUNK_SIZE_TOKENS ocr).1⟩] := by
    rw [(progressCallback_rest _ _ _).1, hstate]
  have hchunks2 : (progressCallback (convertAsync db sources model ocr tid did vid n0).2
        ⟨tid, some 100, none, none, some "completed"⟩ n1).2.chunks = db.chunks := by
    rw [(progressCallback_rest _ _ _).2.2.1, hstate]
  have hnone1 : db.tasks.find? (fun t => t.id == tid) = none :=
    List.find?_eq_none.mpr (fun t ht => by simp [beq_false_of_ne (htfresh t ht)])
  have hnone2 : db.documents.find? (fun d => d.id == did) = none :=
    List.find?_eq_none.mpr (fun d hd => by simp [beq_false_of_ne (hdfresh d hd)])
  have h3 : resultContent none did db.chunks = none :=
    resultContent_none_empty did db.chunks
      (List.filter_eq_nil_iff.mpr (fun c hc => by simp [beq_false_of_ne (hcfresh c hc)]))
  refine ⟨hresp, ?_, ?_, ?_⟩
  · rw [hstate]
    rw [find?_append_last (fun t => t.id == tid) db.tasks _
      (fun t ht => beq_false_of_ne (htfresh t ht)) (beq_self_eq_true tid)]
    rfl
  · rw [htasks2]
    rw [find?_append_last (fun t => t.id == tid) db.tasks _
      (fun t ht => beq_false_of_ne (htfresh t ht)) (beq_self_eq_true tid)]
    rfl
  · simp [getResult, htid, htasks2, hdocs2, hchunks2, hnone1, hnone2, h3]

/-- Witness for C7 with one source against the empty database. -/
theorem async_scenario_end_to_end_witness :
    (["https://a"] : List String) ≠ [] ∧ ("t1" : String) ≠ ""
    ∧ ((convertAsync initDB ["https://a"] "m" "easyocr" "t1" "d1" "v1" 0).1
        = .ok ⟨"t1", "pending", "Document conversion queued"⟩
      ∧ ((convertAsync initDB ["https://a"] "m" "easyocr" "t1" "d1" "v1" 0).2.tasks.find?
          (fun t => t.id == "t1")).map Task.status = some "pending"
      ∧ ((progressCallback (convertAsync initDB ["https://a"] "m" "easyocr" "t1" "d1" "v1" 0).2
            ⟨"t1", some 100, none, none, some "completed"⟩ 1).2.tasks.find?
          (fun t => t.id == "t1")).map (fun t => (t.status, t.progress))
          = some ("completed", 100)
      ∧ getResult (progressCallback (convertAsync initDB ["https://a"] "m" "easyocr" "t1" "d1" "v1" 0).2
            ⟨"t1", some 100, none, none, some "completed"⟩ 1).2 "t1"
        = .ok ⟨"t1", "completed", some "Document conversion queued", 100, none, "d1",
               1, "json", none⟩) :=
  ⟨by decide, by decide,
    async_scenario_end_to_end initDB ["https://a"] "m" "easyocr" "t1" "d1" "v1" 0 1
      (by decide) (by decide) (by decide) (by decide) (by decide)⟩

/-- C9: a multi-file sync upload size-checks and persists only the first
file: the whole outcome (response and database) is invariant under
replacing the trailing files by any others of the same count; the first
file below the limit suffices for success; and the stored document's
pages and the response's pages both equal the total file count, with the
stored content derived from the first file's text alone. -/
theorem first_file_only_persistence (T : Nat) (db : DB) (f1 : FileInput)
    (rest rest' : List FileInput) (fmt model ocr tid did vid : String) (now : Nat)
    (hlen : rest.length = rest'.length) (hrest : rest ≠ [])
    (hsz : f1.size ≤ MAX_FILE_SIZE_MB * 1024 * 1024)
    (hdfresh : ∀ d ∈ db.documents, d.id ≠ did) :
    convertFileT T db (f1 :: rest) fmt model ocr tid did vid now
      = convertFileT T db (f1 :: rest') fmt model ocr tid did vid now
    ∧ (convertFileT T db (f1 :: rest) fmt model ocr tid did vid now).1
      = .ok ⟨tid, "completed", "Files processed successfully", did, (f1 :: rest).length, fmt⟩
    ∧ ((convertFileT T db (f1 :: rest) fmt model ocr tid did vid now).2.documents.find?
        (fun d => d.id == did)).map (fun d => (d.pages, d.content))
      = some ((f1 :: rest).length, inlineStored f1.text T)
    ∧ (convertFileT T db (f1 :: rest) fmt model ocr tid did vid now).2.chunks
      = db.chunks ++ writeChunksLoop did f1.text T := by
  have hlim : ¬ (f1.size > MAX_FILE_SIZE_MB * 1024 * 1024) := by omega
  have hstate : (convertFileT T db (f1 :: rest) fmt model ocr tid did vid now).2
      = { db with
          documents := (db.documents ++ [(⟨did, f1.name, fmt, (f1 :: rest).length,
              inlineStored f1.text T, none⟩ : Document)]).map (fun d =>
                if d.id = did then { d with
                  vectorizerId := some (getOrCreateVectorizer db.vectorizers model vid T ocr).1 }
                else d),
          chunks := db.chunks ++ writeChunksLoop did f1.text T,
          tasks := db.tasks
            ++ [⟨tid, "completed", did, 0, some "Files processed successfully", none, now⟩],
          vectorizers := (getOrCreateVectorizer db.vectorizers model vid T ocr).2 } := by
    simp only [convertFileT, if_neg hlim]
  refine ⟨?_, ?_, ?_, ?_⟩
  · simp only [convertFileT, List.length_cons, hlen]
  · simp only [convertFileT, if_neg hlim]
  · rw [hstate]
    have hmap1 : ([⟨did, f1.name, fmt, (f1 :: rest).length, inlineStored f1.text T, none⟩]
          : List Document).map (fun d =>
            if d.id = did then { d with
              vectorizerId := some (getOrCreateVectorizer db.vectorizers model vid T ocr).1 }
            else d)
        = [⟨did, f1.name, fmt, (f1 :: rest).length, inlineStored f1.text T,
            some (getOrCreateVectorizer db.vectorizers model vid T ocr).1⟩] := by
      simp
    rw [List.map_append, map_id_of_eq _ _ (fun d hd => if_neg (hdfresh d hd)), hmap1]
    rw [find?_append_last (fun d => d.id == did) db.documents _
      (fun d hd => beq_false_of_ne (hdfresh d hd)) (beq_self_eq_true did)]
    rfl
  · rw [hstate]

/-- Witness for C9: two files where the second is oversized and never
checked; threshold 3 chunks the first file's five characters. -/
theorem first_file_only_persistence_witness :
    ([⟨"big", 99999999, "XYZ".toList⟩] : List FileInput).length
        = ([⟨"other", 0, []⟩] : List FileInput).length
    ∧ ([⟨"big", 99999999, "XYZ".toList⟩] : List FileInput) ≠ []
    ∧ (⟨"a.txt", 5, "hello".toList⟩ : FileInput).size ≤ MAX_FILE_SIZE_MB * 1024 * 1024
    ∧ (convertFileT 3 initDB [⟨"a.txt", 5, "hello".toList⟩, ⟨"big", 99999999, "XYZ".toList⟩]
          "json" "m" "easyocr" "t1" "d1" "v1" 0
        = convertFileT 3 initDB [⟨"a.txt", 5, "hello".toList⟩, ⟨"other", 0, []⟩]
          "json" "m" "easyocr" "t1" "d1" "v1" 0
      ∧ (convertFileT 3 initDB [⟨"a.txt", 5, "hello".toList⟩, ⟨"big", 99999999, "XYZ".toList⟩]
          "json" "m" "easyocr" "t1" "d1" "v1" 0).1
        = .ok ⟨"t1", "completed", "Files processed successfully", "d1", 2, "json"⟩
      ∧ ((convertFileT 3 initDB [⟨"a.txt", 5, "hello".toList⟩, ⟨"big", 99999999, "XYZ".toList⟩]
          "json" "m" "easyocr" "t1" "d1" "v1" 0).2.documents.find?
            (fun d => d.id == "d1")).map (fun d => (d.pages, d.content))
        = some (2, inlineStored "hello".toList 3)
      ∧ (convertFileT 3 initDB [⟨"a.txt", 5, "hello".toList⟩, ⟨"big", 99999999, "XYZ".toList⟩]
          "json" "m" "easyocr" "t1" "d1" "v1" 0).2.chunks
        = initDB.chunks ++ writeChunksLoop "d1" "hello".toList 3) :=
  ⟨by decide, by decide, by decide,
    first_file_only_persistence 3 initDB ⟨"a.txt", 5, "hello".toList⟩
      [⟨"big", 99999999, "XYZ".toList⟩] [⟨"other", 0, []⟩] "json" "m" "easyocr"
      "t1" "d1" "v1" 0 (by decide) (by decide) (by decide) (by decide)⟩

/-- Task-relation effect of the URL-sync flow: unchanged on invalid
input, else one appended completed task with progress 0. -/
theorem convertSource_tasks (db : DB) (s : List String) (t d : String) (n : Nat) :
    (convertSource db s t d n).2.tasks = db.tasks
    ∨ (convertSource db s t d n).2.tasks
      = db.tasks ++ [⟨t, "completed", d, 0, some "Document conversion started", none, n⟩] := by
  by_cases hie : s.isEmpty = true
  · refine Or.inl ?_
    unfold convertSource
    rw [if_pos hie]
  · refine Or.inr ?_
    unfold convertSource
    rw [if_neg hie]

/-- Task-relation effect of the file flow: unchanged on invalid input,
else one appended completed task with progress 0. -/
theorem convertFileT_tasks (T : Nat) (db : DB) (files : List FileInput)
    (fmt m o t d v : String) (n : Nat) :
    (convertFileT T db files fmt m o t d v n).2.tasks = db.tasks
    ∨ (convertFileT T db files fmt m o t d v n).2.tasks
      = db.tasks ++ [⟨t, "completed", d, 0, some "Files processed successfully", none, n⟩] := by
  cases files with
  | nil => exact Or.inl rfl
  | cons f fs =>
    by_cases hsz : f.size > MAX_FILE_SIZE_MB * 1024 * 1024
    · refine Or.inl ?_
      simp only [convertFileT, if_pos hsz]
    · refine Or.inr ?_
      simp only [convertFileT, if_neg hsz]

/-- Task-relation effect of the async flow: unchanged on invalid input,
else one appended pending task with progress 0. -/
theorem convertAsync_tasks (db : DB) (s : List String) (m o t d v : String) (n : Nat) :
    (convertAsync db s m o t d v n).2.tasks = db.tasks
    ∨ (convertAsync db s m o t d v n).2.tasks
      = db.tasks ++ [⟨t, "pending", d, 0, some "Document conversion queued", none, n⟩] := by
  by_cases hie : s.isEmpty = true
  · refine Or.inl ?_
    unfold convertAsync
    rw [if_pos hie]
  · refine Or.inr ?_
    unfold convertAsync
    rw [if_neg hie]

/-- Task-relation effect of a progress callback: unchanged when
rejected, else every matching row rewritten through `updatedTask`. -/
theorem progressCallback_tasks_cases (db : DB) (req : ProgressReq) (now : Nat) :
    (progressCallback db req now).2.tasks = db.tasks
    ∨ ∃ p, req.progress = some p ∧ (progressCallback db req now).2.tasks
        = db.tasks.map (fun t => if t.id = req.task_id then updatedTask req p now t else t) := by
  unfold progressCallback
  split
  · exact Or.inl rfl
  · split
    · exact Or.inl rfl
    · rename_i p heq
      exact Or.inr ⟨p, heq, rfl⟩

/-- C8 counterexample: a progress callback carrying progress = 150 is
accepted without range validation, so a task row with progress 150 —
outside 0..100 — is reachable from a fresh deployment through one async
ingestion followed by one callback. -/
theorem progress_range_cx :
    ∃ t ∈ (runOps [.async ["https://a"] "m" "easyocr" "t1" "d1" "v1" 0,
        .progress ⟨"t1", some 150, none, none, none⟩ 1]).tasks,
      ¬ (0 ≤ t.progress ∧ t.progress ≤ 100) := by
  decide

/-- C8 (amended): the handlers never validate the progress range, so the
0..100 invariant holds exactly when every applied progress callback
itself carries a value in 0..100: task creation writes progress 0, and a
callback overwrites it with the supplied value unchanged. -/
theorem progress_range_amended (ops : List Op)
    (h : ∀ op ∈ ops, opProgressOK op = true) :
    ∀ t ∈ (runOps ops).tasks, 0 ≤ t.progress ∧ t.progress ≤ 100 := by
  suffices hgen : ∀ (ops1 : List Op) (db : DB), (∀ op ∈ ops1, opProgressOK op = true) →
      (∀ t ∈ db.tasks, 0 ≤ t.progress ∧ t.progress ≤ 100) →
      ∀ t ∈ (ops1.foldl applyOp db).tasks, 0 ≤ t.progress ∧ t.progress ≤ 100 by
    exact hgen ops initDB h (fun t ht => absurd ht (by simp [initDB]))
  intro ops1
  induction ops1 with
  | nil => exact fun db _ hdb => hdb
  | cons op ops2 ih =>
    intro db hops hdb
    refine ih (applyOp db op) (fun o ho => hops o (List.mem_cons_of_mem _ ho)) ?_
    have hop := hops op (List.mem_cons_self _ _)
    cases op with
    | source s t d n =>
      intro tk htk
      replace htk : tk ∈ (convertSource db s t d n).2.tasks := htk
      rcases convertSource_tasks db s t d n with hcase | hcase
      · rw [hcase] at htk
        exact hdb tk htk
      · rw [hcase] at htk
        rcases List.mem_append.mp htk with hin | hin
        · exact hdb tk hin
        · rcases List.mem_singleton.mp hin with rfl
          exact ⟨by simp, by simp⟩
    | file fs fmt m o t d v n =>
      intro tk htk
      replace htk : tk ∈ (convertFileT CHUNK_SIZE_TOKENS db fs fmt m o t d v n).2.tasks := htk
      rcases convertFileT_tasks CHUNK_SIZE_TOKENS db fs fmt m o t d v n with hcase | hcase
      · rw [hcase] at htk
        exact hdb tk htk
      · rw [hcase] at htk
        rcases List.mem_append.mp htk with hin | hin
        · exact hdb tk hin
        · rcases List.mem_singleton.mp hin with rfl
          exact ⟨by simp, by simp⟩
    | async s m o t d v n =>
      intro tk htk
      replace htk : tk ∈ (convertAsync db s m o t d v n).2.tasks := htk
      rcases convertAsync_tasks db s m o t d v n with hcase | hcase
      · rw [hcase] at htk
        exact hdb tk htk
      · rw [hcase] at htk
        rcases List.mem_append.mp htk with hin | hin
        · exact hdb tk hin
        · rcases List.mem_singleton.mp hin with rfl
          exact ⟨by simp, by simp⟩
    | progress r n =>
      intro tk htk
      replace htk : tk ∈ (progressCallback db r n).2.tasks := htk
      rcases progressCallback_tasks_cases db r n with hcase | ⟨p, hp, hcase⟩
      · rw [hcase] at htk
        exact hdb tk htk
      · rw [hcase] at htk
        rcases List.mem_map.mp htk with ⟨t0, ht0, rfl⟩
        by_cases hid : t0.id = r.task_id
        · rw [if_pos hid]
          have hbound : 0 ≤ p ∧ p ≤ 100 := by
            simp only [opProgressOK, hp] at hop
            exact of_decide_eq_true hop
          exact ⟨by simp [updatedTask, hbound.1], by simp [updatedTask, hbound.2]⟩
        · rw [if_neg hid]
          exact hdb t0 ht0
    | ensureDefault m v =>
      intro tk htk
      exact hdb tk htk

/-- Witness for C8's amended invariant on a two-operation trace whose
callback carries progress 50. -/
theorem progress_range_amended_witness :
    (⟨"t1", "pending", "d1", 50, some "Document conversion queued", none, 1⟩ : Task)
        ∈ (runOps [.async ["https://a"] "m" "easyocr" "t1" "d1" "v1" 0,
            .progress ⟨"t1", some 50, none, none, none⟩ 1]).tasks
    ∧ (0 ≤ (⟨"t1", "pending", "d1", 50, some "Document conversion queued", none, 1⟩ : Task).progress
      ∧ (⟨"t1", "pending", "d1", 50, some "Document conversion queued", none, 1⟩ : Task).progress ≤ 100) :=
  ⟨by decide,
    progress_range_amended
      [.async ["https://a"] "m" "easyocr" "t1" "d1" "v1" 0,
       .progress ⟨"t1", some 50, none, none, none⟩ 1]
      (by decide)
      ⟨"t1", "pending", "d1", 50, some "Document conversion queued", none, 1⟩
      (by decide)⟩

/-- Witness for C1's amended round-trip at threshold 2 and the edge
length 10*T+7 = 27. -/
theorem roundtrip_nonempty_content_witness :
    0 < 2 ∧ "abcdefghijklmnopqrstuvwxyz!".toList ≠ []
    ∧ getResult (convertFileT 2 initDB [⟨"f.txt", 27, "abcdefghijklmnopqrstuvwxyz!".toList⟩]
          "json" "m" "easyocr" "t1" "d1" "v1" 0).2 "t1"
        = .ok ⟨"t1", "completed", some "Files processed successfully", 0, none,
               "d1", 1, "json", some "abcdefghijklmnopqrstuvwxyz!".toList⟩ :=
  ⟨by decide, by decide,
    roundtrip_nonempty_content "abcdefghijklmnopqrstuvwxyz!".toList 2 "f.txt" "json" "m"
      "easyocr" "t1" "d1" "v1" 27 0 (by decide) (by decide) (by decide) (by decide)
      (by decide)⟩

end DoclingCF
